import Mathlib

/-!
# Verification of the e-commerce analytics dashboard (`src/dashboard.py`)

Shallow embedding of the dashboard's data pipeline. A pandas `DataFrame` of
order rows is modelled as a `List Record`. Timestamps are seconds since the
epoch (`Nat`); the `.dt.date` projection of a naive timestamp is its epoch-day
number, i.e. division by 86400. Monetary amounts (`payment_value`,
`delivery_time`) are rationals. A pandas scalar that can be `NaN` (the mean of
an empty series, an entry of an aligned division with a missing numerator, the
max of an all-`NaN` series) is modelled as `Option ℚ` with `none` for `NaN`.

The embedding follows `main` in `src/dashboard.py` line by line:
filtering (lines 47-49), the four metrics (lines 52-60), the three tab views
(lines 70-115) and the RFM computation (lines 121-151).
-/

/-- One row of `all_df` / `filtered_df`: the columns of `all_dataset.csv`
used by the dashboard, with `order_purchase_timestamp` already parsed
(seconds since the epoch). -/
structure Record where
  order_id : String
  customer_id : String
  order_purchase_timestamp : Nat
  payment_value : ℚ
  product_category_name_english : String
  customer_state : String
  delivery_time : ℚ
  order_status : String
  payment_type : String
deriving DecidableEq, Repr

namespace Dashboard

/-- `row['order_purchase_timestamp'].dt.date`, as an epoch-day number. -/
def dateOf (r : Record) : Nat :=
  r.order_purchase_timestamp / 86400

/-- Lines 47-49: `filtered_df = all_df[mask]` with
`mask = (date >= date_range[0]) & (date <= date_range[1])`. -/
def filterByDate (dmin dmax : Nat) (l : List Record) : List Record :=
  l.filter (fun r => decide (dmin ≤ dateOf r ∧ dateOf r ≤ dmax))

/-- Line 54: `len(filtered_df['order_id'].unique())`. -/
def totalOrders (l : List Record) : Nat :=
  ((l.map Record.order_id).dedup).length

/-- Line 56: `filtered_df['payment_value'].sum()` (0 on an empty frame). -/
def totalRevenue (l : List Record) : ℚ :=
  (l.map Record.payment_value).sum

/-- Line 58: `len(filtered_df['customer_id'].unique())`. -/
def uniqueCustomers (l : List Record) : Nat :=
  ((l.map Record.customer_id).dedup).length

/-- Line 60: `filtered_df['payment_value'].mean()`. The pandas mean of an
empty series is `NaN` (modelled as `none`), otherwise sum / count. -/
def avgOrderValue (l : List Record) : Option ℚ :=
  if l.length = 0 then none else some (totalRevenue l / (l.length : ℚ))

/-- Line 66: `highlight_color = "#72BCD4"`. -/
def highlightColor : String := "#72BCD4"

/-- Line 67: `base_color = "#D3D3D3"`. -/
def baseColor : String := "#D3D3D3"

/-- Code-point lexicographic comparison of character lists. -/
def charListLe : List Char → List Char → Bool
  | [], _ => true
  | _ :: _, [] => false
  | a :: as, b :: bs =>
    if a.toNat < b.toNat then true
    else if b.toNat < a.toNat then false
    else charListLe as bs

/-- The code-point lexicographic order on strings — the order in which pandas
sorts string group keys. -/
def strLe (a b : String) : Prop := charListLe a.data b.data = true

instance : DecidableRel strLe :=
  fun a b => inferInstanceAs (Decidable (charListLe a.data b.data = true))

/-- The distinct values of a column, in the sorted order a pandas `groupby`
(`sort=True`, the default) presents its group keys. -/
def sortedKeys (f : Record → String) (l : List Record) : List String :=
  List.insertionSort strLe ((l.map f).dedup)

/-- Line 72: `filtered_df['product_category_name_english'].value_counts()` —
one `(category, count)` pair per distinct category, sorted by descending
count (stably, so `.nlargest(5)` with `keep='first'` is its 5-prefix). -/
def valueCountsCategory (l : List Record) : List (String × Nat) :=
  List.insertionSort (fun a b => b.2 ≤ a.2)
    (((l.map Record.product_category_name_english).dedup).map
      (fun c => (c, l.countP (fun r => r.product_category_name_english == c))))

/-- Line 72: `top_categories = ... .value_counts().nlargest(5)`. -/
def topCategories (l : List Record) : List (String × Nat) :=
  (valueCountsCategory l).take 5

/-- Line 74: `[highlight_color if i == 0 else base_color
for i in range(len(top_categories))]`. -/
def colorsTab1 (l : List Record) : List String :=
  (List.range (topCategories l).length).map
    (fun i => if i = 0 then highlightColor else baseColor)

/-- The mean of `delivery_time` over the rows of one `customer_state` group
(only evaluated at states that occur in `l`, so the group is non-empty). -/
def meanDeliveryTime (st : String) (l : List Record) : ℚ :=
  (((l.filter (fun r => r.customer_state == st)).map Record.delivery_time).sum) /
    ((l.countP (fun r => r.customer_state == st) : ℚ))

/-- Line 87: `filtered_df.groupby('customer_state')['delivery_time'].mean()
.nlargest(5)` — per-state means, stably sorted descending, first 5. -/
def avgDeliveryTime (l : List Record) : List (String × ℚ) :=
  (List.insertionSort (fun a b => b.2 ≤ a.2)
    ((sortedKeys Record.customer_state l).map
      (fun st => (st, meanDeliveryTime st l)))).take 5

/-- Line 89: `[highlight_color if i == 0 else base_color
for i in range(len(avg_delivery_time))]`. -/
def colorsTab2 (l : List Record) : List String :=
  (List.range (avgDeliveryTime l).length).map
    (fun i => if i = 0 then highlightColor else baseColor)

/-- `filtered_df[filtered_df['order_status'] == 'canceled']
.groupby('payment_type').size()` evaluated at one payment type. -/
def canceledCount (pt : String) (l : List Record) : Nat :=
  l.countP (fun r => r.order_status == "canceled" && r.payment_type == pt)

/-- `filtered_df.groupby('payment_type').size()` evaluated at one type. -/
def ptCount (pt : String) (l : List Record) : Nat :=
  l.countP (fun r => r.payment_type == pt)

/-- Lines 102-103: `cancellation_rate = canceled.groupby(...).size() /
all.groupby(...).size() * 100`. The division aligns the two series on the
union of their (sorted) indexes — which is the full set of payment types
occurring in `filtered_df`, since the canceled subset's types are a subset
of those. A type with no canceled row is missing from the numerator, so its
aligned quotient is `NaN` (`none`); otherwise the entry is
`canceled / total * 100`. -/
def cancellationRate (l : List Record) : List (String × Option ℚ) :=
  (sortedKeys Record.payment_type l).map
    (fun pt =>
      (pt, if canceledCount pt l = 0 then none
           else some ((canceledCount pt l : ℚ) / (ptCount pt l : ℚ) * 100)))

/-- The pandas `Series.max()` of a list of non-`NaN` values: `NaN` (`none`)
on an empty series, else the maximum. -/
def seriesMax (l : List ℚ) : Option ℚ :=
  l.foldr (fun x acc => match acc with
    | none => some x
    | some m => some (max x m)) none

/-- Line 105: `max_value = cancellation_rate.max()` (`NaN` entries are
skipped; the max of an all-`NaN` or empty series is `NaN`). -/
def maxValue (l : List Record) : Option ℚ :=
  seriesMax ((cancellationRate l).filterMap Prod.snd)

/-- Line 106: `[highlight_color if val == max_value else base_color
for val in cancellation_rate.values]`. A comparison with `NaN` (on either
side) is false, so it yields the base color. -/
def colorsTab3 (l : List Record) : List String :=
  (cancellationRate l).map
    (fun p => match p.2, maxValue l with
      | some v, some m => if v = m then highlightColor else baseColor
      | _, _ => baseColor)

/-- One row of `rfm_df` (lines 121-129). -/
structure RFMRow where
  customer_id : String
  max_order_timestamp : Nat
  frequency : Nat
  monetary : ℚ
  recency : Int
deriving DecidableEq, Repr

/-- `max()` of a series of timestamps, with 0 for the empty series (the
empty case is never reached from a group of a non-empty frame). -/
def tsMax (ts : List Nat) : Nat := ts.foldr max 0

/-- Line 128: `recent_date = filtered_df['order_purchase_timestamp'].max()`. -/
def recentDate (l : List Record) : Nat :=
  tsMax (l.map Record.order_purchase_timestamp)

/-- The rows of one customer's group. -/
def customerRows (c : String) (l : List Record) : List Record :=
  l.filter (fun r => r.customer_id == c)

/-- Lines 121-129 for one customer `c` of the filtered frame:
`max_order_timestamp` = max of their purchase timestamps, `frequency` =
`order_id: "nunique"`, `monetary` = `payment_value: "sum"`, and `recency`
`= (recent_date - max_order_timestamp).dt.days` — the timedelta's `.days`
floors, hence `Int.fdiv` by 86400 seconds. -/
def rfmRowOf (c : String) (l : List Record) : RFMRow :=
  { customer_id := c
    max_order_timestamp := tsMax ((customerRows c l).map Record.order_purchase_timestamp)
    frequency := (((customerRows c l).map Record.order_id).dedup).length
    monetary := ((customerRows c l).map Record.payment_value).sum
    recency :=
      ((recentDate l : Int) -
        (tsMax ((customerRows c l).map Record.order_purchase_timestamp) : Int)).fdiv 86400 }

/-- Lines 121-129: `rfm_df = filtered_df.groupby(by="customer_id",
as_index=False).agg(...)` plus the `recency` column — one row per distinct
customer, keys in the sorted order `groupby` produces. -/
def rfm (l : List Record) : List RFMRow :=
  (sortedKeys Record.customer_id l).map (fun c => rfmRowOf c l)

/-- `DataFrame.nsmallest(n, col)` with the default `keep='first'`: the first
`n` rows of a stable ascending sort on `key` (ties keep frame order). -/
def nsmallestBy {β : Type} [LinearOrder β] (n : Nat) (key : RFMRow → β)
    (l : List RFMRow) : List RFMRow :=
  (List.insertionSort (fun a b => key a ≤ key b) l).take n

/-- `DataFrame.nlargest(n, col)` with the default `keep='first'`: the first
`n` rows of a stable descending sort on `key` (ties keep frame order). -/
def nlargestBy {β : Type} [LinearOrder β] (n : Nat) (key : RFMRow → β)
    (l : List RFMRow) : List RFMRow :=
  (List.insertionSort (fun a b => key b ≤ key a) l).take n

/-- Line 136: `rfm_df.nsmallest(5, 'recency')`. -/
def recencyTop5 (l : List Record) : List RFMRow :=
  nsmallestBy 5 RFMRow.recency (rfm l)

/-- Line 142: `rfm_df.nlargest(5, 'frequency')`. -/
def frequencyTop5 (l : List Record) : List RFMRow :=
  nlargestBy 5 RFMRow.frequency (rfm l)

/-- Line 148: `rfm_df.nlargest(5, 'monetary')`. -/
def monetaryTop5 (l : List Record) : List RFMRow :=
  nlargestBy 5 RFMRow.monetary (rfm l)

/-! ## General lemmas about the embedded operations -/

/-- Every element of a series bounds `tsMax` from below. -/
theorem le_tsMax {x : Nat} : ∀ {ts : List Nat}, x ∈ ts → x ≤ tsMax ts
  | t :: ts, h => by
    rcases List.mem_cons.1 h with rfl | h
    · exact le_max_left _ _
    · exact le_trans (le_tsMax h) (le_max_right _ _)

/-- `tsMax` is bounded by any upper bound of the series. -/
theorem tsMax_le {M : Nat} : ∀ {ts : List Nat}, (∀ x ∈ ts, x ≤ M) → tsMax ts ≤ M
  | [], _ => Nat.zero_le M
  | t :: ts, h => by
    exact max_le (h t (List.mem_cons_self t ts))
      (tsMax_le fun x hx => h x (List.mem_cons_of_mem t hx))

/-- On a non-empty series, `tsMax` is attained. -/
theorem tsMax_mem : ∀ {ts : List Nat}, ts ≠ [] → tsMax ts ∈ ts
  | [t], _ => by
    show max t 0 ∈ [t]
    rw [max_eq_left (Nat.zero_le t)]
    exact List.mem_cons_self t []
  | t :: t' :: ts, _ => by
    have ih := tsMax_mem (List.cons_ne_nil t' ts)
    show max t (tsMax (t' :: ts)) ∈ t :: t' :: ts
    rcases le_total t (tsMax (t' :: ts)) with h | h
    · rw [max_eq_right h]
      exact List.mem_cons_of_mem t ih
    · rw [max_eq_left h]
      exact List.mem_cons_self t _

/-- Distinct-value counts (`len(series.unique())`) never decrease when the
underlying frame grows (as a sublist). -/
theorem distinct_le_of_sublist {β : Type} [DecidableEq β] (f : Record → β)
    {l₁ l₂ : List Record} (h : List.Sublist l₁ l₂) :
    ((l₁.map f).dedup).length ≤ ((l₂.map f).dedup).length := by
  rw [← List.card_toFinset, ← List.card_toFinset]
  refine Finset.card_le_card fun x hx => ?_
  rw [List.mem_toFinset] at hx ⊢
  exact (h.map f).subset hx

/-- In a duplicate-free list, if `a` occurs before `b` and `b` is among the
first `n` entries, so is `a`. -/
theorem mem_take_of_pair_sublist {α : Type} {a b : α} :
    ∀ {s : List α} {n : Nat}, s.Nodup → List.Sublist [a, b] s → b ∈ s.take n → a ∈ s.take n
  | [], _, _, hab, _ => nomatch hab
  | _ :: _, 0, _, _, hb => nomatch hb
  | x :: s', n + 1, hnd, hab, hb => by
    cases hab with
    | cons _ hab' =>
      rcases List.mem_cons.1 hb with rfl | hb'
      · exact absurd (hab'.subset (by simp)) (List.nodup_cons.1 hnd).1
      · exact List.mem_cons_of_mem x
          (mem_take_of_pair_sublist (List.nodup_cons.1 hnd).2 hab' hb')
    | cons₂ _ _ => exact List.mem_cons_self a _

/-- Stable tie-breaking of `nsmallestBy`: among rows tied on the key, one
occurring earlier in the frame is selected whenever a later one is. -/
theorem nsmallestBy_tie {β : Type} [LinearOrder β] {n : Nat} {key : RFMRow → β}
    {s : List RFMRow} {a b : RFMRow} (hnd : s.Nodup) (hab : List.Sublist [a, b] s)
    (hk : key a = key b) (hb : b ∈ nsmallestBy n key s) : a ∈ nsmallestBy n key s := by
  have hpair : List.Sublist [a, b] (List.insertionSort (fun a b => key a ≤ key b) s) :=
    List.pair_sublist_insertionSort (le_of_eq hk) hab
  exact mem_take_of_pair_sublist
    ((List.perm_insertionSort _ s).nodup_iff.mpr hnd) hpair hb

/-- Stable tie-breaking of `nlargestBy`: among rows tied on the key, one
occurring earlier in the frame is selected whenever a later one is. -/
theorem nlargestBy_tie {β : Type} [LinearOrder β] {n : Nat} {key : RFMRow → β}
    {s : List RFMRow} {a b : RFMRow} (hnd : s.Nodup) (hab : List.Sublist [a, b] s)
    (hk : key a = key b) (hb : b ∈ nlargestBy n key s) : a ∈ nlargestBy n key s := by
  have hpair : List.Sublist [a, b] (List.insertionSort (fun a b => key b ≤ key a) s) :=
    List.pair_sublist_insertionSort (le_of_eq hk.symm) hab
  exact mem_take_of_pair_sublist
    ((List.perm_insertionSort _ s).nodup_iff.mpr hnd) hpair hb

/-- Group keys of a frame (`sortedKeys`) are duplicate-free. -/
theorem nodup_sortedKeys (f : Record → String) (l : List Record) :
    (sortedKeys f l).Nodup :=
  (List.perm_insertionSort _ _).nodup_iff.mpr (List.nodup_dedup _)

/-- A value occurring in the frame occurs among the group keys. -/
theorem mem_sortedKeys {f : Record → String} {l : List Record} {r : Record}
    (hr : r ∈ l) : f r ∈ sortedKeys f l :=
  (List.mem_insertionSort _).mpr (List.mem_dedup.mpr (List.mem_map_of_mem f hr))

/-- The customer column of `rfm_df` is its key list. -/
theorem rfm_map_customer (l : List Record) :
    (rfm l).map RFMRow.customer_id = sortedKeys Record.customer_id l := by
  simp [rfm, rfmRowOf, List.map_map, Function.comp_def]

/-- `rfm_df` has no duplicate rows (its customer column is duplicate-free). -/
theorem nodup_rfm (l : List Record) : (rfm l).Nodup := by
  have h : ((rfm l).map RFMRow.customer_id).Nodup := by
    rw [rfm_map_customer]; exact nodup_sortedKeys _ l
  exact h.of_map

/-- Summing over duplicate-free keys with one key's term bumped by `q`. -/
theorem sum_map_if_eq {f : String → ℚ} {q : ℚ} {x : String} :
    ∀ {K : List String}, K.Nodup → x ∈ K →
      (K.map (fun c => if x = c then q + f c else f c)).sum = q + (K.map f).sum
  | k :: K', hnd, hx => by
    rcases List.mem_cons.1 hx with rfl | hx'
    · have hcongr : ∀ c ∈ K', (if x = c then q + f c else f c) = f c := by
        intro c hc
        have hne : x ≠ c := by rintro rfl; exact (List.nodup_cons.1 hnd).1 hc
        rw [if_neg hne]
      simp only [List.map_cons, List.sum_cons]
      rw [List.map_congr_left hcongr]
      split_ifs with h
      · ring
      · exact absurd trivial h
    · have hne : x ≠ k := fun h => (List.nodup_cons.1 hnd).1 (h ▸ hx')
      simp only [List.map_cons, List.sum_cons, if_neg hne]
      rw [sum_map_if_eq (List.nodup_cons.1 hnd).2 hx']
      ring

/-- Grouping a frame by a key and summing a numeric column per group
partitions the column's total sum. -/
theorem sum_groups (key : Record → String) (val : Record → ℚ) :
    ∀ (l : List Record) (K : List String), K.Nodup → (∀ r ∈ l, key r ∈ K) →
      (K.map (fun c => ((l.filter (fun r' => key r' == c)).map val).sum)).sum
        = (l.map val).sum
  | [], K, _, _ => by simp
  | r :: l', K, hnd, hcov => by
    have hmem : key r ∈ K := hcov r (List.mem_cons_self r l')
    have hstep : ∀ c ∈ K,
        (((r :: l').filter (fun r' => key r' == c)).map val).sum
          = if key r = c
            then val r + ((l'.filter (fun r' => key r' == c)).map val).sum
            else ((l'.filter (fun r' => key r' == c)).map val).sum := by
      intro c _
      by_cases h : key r = c
      · simp [List.filter_cons, h]
      · simp [List.filter_cons, h]
    rw [List.map_congr_left hstep, sum_map_if_eq hnd hmem,
      sum_groups key val l' K hnd (fun r' hr' => hcov r' (List.mem_cons_of_mem r hr'))]
    simp

/-! ## The claims -/

/-- **C1** (corrected). On an empty filtered subset, Total Orders, Total
Revenue and Unique Customers are reported as 0 / $0.00 and none of the four
computations raises; but Average Order Value — the pandas mean of an empty
series — is `NaN` (rendered `$nan`), not `$0.00`. -/
theorem C1_empty_metrics :
    totalOrders [] = 0 ∧ totalRevenue [] = 0 ∧ uniqueCustomers [] = 0 ∧
      avgOrderValue [] = none :=
  ⟨rfl, rfl, rfl, rfl⟩

/-- **C1** counterexample: on zero rows the Average Order Value metric does
not equal $0.00 — the mean of the empty payment series is `NaN` (`none`). -/
theorem C1_counterexample : avgOrderValue [] ≠ some 0 := by
  simp [avgOrderValue]

/-- **C2** (confirmed). The Filter Layer keeps exactly the records whose
purchase date `d` satisfies `min ≤ d ≤ max`, both bounds inclusive. -/
theorem C2_filter_iff (dmin dmax : Nat) (l : List Record) (r : Record) :
    r ∈ filterByDate dmin dmax l ↔ r ∈ l ∧ dmin ≤ dateOf r ∧ dateOf r ≤ dmax := by
  simp [filterByDate, List.mem_filter]

/-- **C6** (confirmed). Filtering is monotonic: if the range `[d2min, d2max]`
contains the range `[d1min, d1max]`, Total Orders and Unique Customers over
the wider filtered subset are at least those over the narrower one. -/
theorem C6_filter_monotone (l : List Record) (d1min d1max d2min d2max : Nat)
    (h1 : d2min ≤ d1min) (h2 : d1max ≤ d2max) :
    totalOrders (filterByDate d1min d1max l)
        ≤ totalOrders (filterByDate d2min d2max l) ∧
      uniqueCustomers (filterByDate d1min d1max l)
        ≤ uniqueCustomers (filterByDate d2min d2max l) := by
  have hsub : List.Sublist (filterByDate d1min d1max l) (filterByDate d2min d2max l) := by
    refine List.monotone_filter_right l fun r hr => ?_
    simp only [decide_eq_true_eq] at hr ⊢
    exact ⟨le_trans h1 hr.1, le_trans hr.2 h2⟩
  exact ⟨distinct_le_of_sublist Record.order_id hsub,
    distinct_le_of_sublist Record.customer_id hsub⟩

/-- A sample row with the given identifiers, timestamp (in days), payment,
status and payment type. -/
def mkRecord (oid cid : String) (day : Nat) (pay : ℚ) (status ptype : String) :
    Record :=
  { order_id := oid, customer_id := cid, order_purchase_timestamp := day * 86400,
    payment_value := pay, product_category_name_english := "toys",
    customer_state := "SP", delivery_time := 10, order_status := status,
    payment_type := ptype }

/-- Two-row frame used to instantiate C6. -/
def c6Rows : List Record :=
  [mkRecord "A" "X" 5 50 "delivered" "credit_card",
   mkRecord "B" "Y" 9 30 "delivered" "boleto"]

/-- Witness for C6 at a concrete frame and a concrete pair of nested ranges. -/
theorem C6_witness :
    totalOrders (filterByDate 5 5 c6Rows) ≤ totalOrders (filterByDate 0 10 c6Rows) ∧
      uniqueCustomers (filterByDate 5 5 c6Rows)
        ≤ uniqueCustomers (filterByDate 0 10 c6Rows) :=
  C6_filter_monotone c6Rows 5 5 0 10 (by decide) (by decide)

/-- **C9** (confirmed). The monetary values of the per-customer RFM rows sum
to the Total Revenue of the filtered subset: grouping by customer partitions
the rows, so the per-customer payment sums reproduce the global payment sum. -/
theorem C9_monetary_partition (l : List Record) :
    ((rfm l).map RFMRow.monetary).sum = totalRevenue l := by
  have h1 : (rfm l).map RFMRow.monetary
      = (sortedKeys Record.customer_id l).map
          (fun c => ((l.filter (fun r' => r'.customer_id == c)).map
            Record.payment_value).sum) := by
    simp [rfm, rfmRowOf, List.map_map, Function.comp_def, customerRows]
  rw [h1, sum_groups Record.customer_id Record.payment_value l _
    (nodup_sortedKeys _ l) (fun r hr => mem_sortedKeys hr)]
  rfl

/-- A customer's latest purchase never postdates the frame's latest. -/
theorem customer_tsMax_le (c : String) (l : List Record) :
    tsMax ((customerRows c l).map Record.order_purchase_timestamp) ≤ recentDate l := by
  refine tsMax_le fun x hx => le_tsMax ?_
  rcases List.mem_map.1 hx with ⟨r, hr, rfl⟩
  exact List.mem_map_of_mem _ ((List.filter_sublist l).subset hr)

/-- **C4** (corrected). For a non-empty filtered subset every customer's RFM
recency is ≥ 0, and at least one customer — one holding the globally latest
purchase of the filtered set — has recency 0. (The claim's "exactly one"
fails: several customers can be tied at recency 0, see `C4_counterexample`.) -/
theorem C4_recency_nonneg (l : List Record) (h : l ≠ []) :
    (∀ row ∈ rfm l, 0 ≤ row.recency) ∧ (∃ row ∈ rfm l, row.recency = 0) := by
  constructor
  · rintro row hrow
    rcases List.mem_map.1 hrow with ⟨c, _, rfl⟩
    refine Int.fdiv_nonneg (sub_nonneg.mpr ?_) (by norm_num)
    exact_mod_cast customer_tsMax_le c l
  · have hne : l.map Record.order_purchase_timestamp ≠ [] := by simpa using h
    rcases List.mem_map.1 (tsMax_mem hne) with ⟨r, hr, hts⟩
    refine ⟨rfmRowOf r.customer_id l,
      List.mem_map_of_mem _ (mem_sortedKeys hr), ?_⟩
    have hmem : r ∈ customerRows r.customer_id l :=
      List.mem_filter.2 ⟨hr, by simp⟩
    have hge : recentDate l
        ≤ tsMax ((customerRows r.customer_id l).map Record.order_purchase_timestamp) := by
      rw [show recentDate l = r.order_purchase_timestamp from hts.symm]
      exact le_tsMax (List.mem_map_of_mem _ hmem)
    have heq : tsMax ((customerRows r.customer_id l).map Record.order_purchase_timestamp)
        = recentDate l := le_antisymm (customer_tsMax_le _ l) hge
    show ((recentDate l : Int)
        - (tsMax ((customerRows r.customer_id l).map Record.order_purchase_timestamp) : Int)).fdiv
          86400 = 0
    rw [heq, sub_self, Int.zero_fdiv]

/-- Frame in which two customers' latest purchases fall on the same day. -/
def c4Rows : List Record :=
  [mkRecord "A" "X" 5 50 "delivered" "credit_card",
   mkRecord "B" "Y" 5 30 "delivered" "boleto"]

/-- **C4** counterexample: in a non-empty frame where two customers last
purchased at the same timestamp, both RFM rows have recency 0, so the number
of customers with recency 0 is 2 — not "exactly one". -/
theorem C4_counterexample :
    c4Rows ≠ [] ∧ (rfm c4Rows).countP (fun row => row.recency == 0) ≠ 1 :=
  ⟨by decide, by decide⟩

/-- Witness for C4 at a concrete non-empty frame. -/
theorem C4_witness :
    (∀ row ∈ rfm c4Rows, 0 ≤ row.recency) ∧ (∃ row ∈ rfm c4Rows, row.recency = 0) :=
  C4_recency_nonneg c4Rows (by decide)

/-- **C3** (corrected). Every payment type shown in the cancellation-rate
chart has at least one row in the filtered subset — types with zero rows are
excluded outright, so no division error or `NaN` bar can come from them. Its
entry equals canceled/total × 100 whenever the type has at least one canceled
row; but with zero canceled rows the entry is `NaN` (`none`), not 0: the
claim's formula fails there, see `C3_counterexample`. -/
theorem C3_cancellation_rate (l : List Record) (pt : String) (v : Option ℚ)
    (h : (pt, v) ∈ cancellationRate l) :
    0 < ptCount pt l ∧
      (0 < canceledCount pt l →
        v = some ((canceledCount pt l : ℚ) / (ptCount pt l : ℚ) * 100)) ∧
      (canceledCount pt l = 0 → v = none) := by
  rcases List.mem_map.1 h with ⟨pt', hpt', heq⟩
  injection heq with h1 h2
  subst h1
  subst h2
  refine ⟨?_, ?_, ?_⟩
  · rcases List.mem_map.1 (List.mem_dedup.1 ((List.mem_insertionSort _).1 hpt'))
      with ⟨r, hr, hpr⟩
    exact List.countP_pos_iff.2 ⟨r, hr, by simp [hpr]⟩
  · intro hpos
    rw [if_neg (Nat.pos_iff_ne_zero.1 hpos)]
  · intro hzero
    rw [if_pos hzero]

/-- One-row frame whose only payment type has no canceled row. -/
def c3Rows : List Record := [mkRecord "A" "X" 5 50 "delivered" "credit_card"]

/-- **C3** counterexample: with a single delivered credit-card row, the
claim's formula gives rate 0/1 × 100 = 0 for "credit_card", but the chart
entry is `NaN` (`none`): the aligned division has no numerator entry for a
type without canceled rows. -/
theorem C3_counterexample :
    ¬ ∀ p ∈ cancellationRate c3Rows,
        p.2 = some ((canceledCount p.1 c3Rows : ℚ) / (ptCount p.1 c3Rows : ℚ) * 100) := by
  intro hall
  have hmem : ("credit_card", (none : Option ℚ)) ∈ cancellationRate c3Rows := by decide
  exact Option.noConfusion (hall _ hmem)

/-- Witness for C3 at a concrete frame and charted payment type. -/
theorem C3_witness :
    0 < ptCount "credit_card" c3Rows ∧
      (0 < canceledCount "credit_card" c3Rows →
        (none : Option ℚ) = some ((canceledCount "credit_card" c3Rows : ℚ) /
          (ptCount "credit_card" c3Rows : ℚ) * 100)) ∧
      (canceledCount "credit_card" c3Rows = 0 → (none : Option ℚ) = none) :=
  C3_cancellation_rate c3Rows "credit_card" none (by decide)

/-- Unfolding of `seriesMax` on a cons cell. -/
theorem seriesMax_cons (y : ℚ) (ys : List ℚ) :
    seriesMax (y :: ys)
      = match seriesMax ys with
        | none => some y
        | some m => some (max y m) := rfl

/-- An empty `seriesMax` means an empty series. -/
theorem seriesMax_eq_none : ∀ {xs : List ℚ}, seriesMax xs = none → xs = []
  | [], _ => rfl
  | y :: ys, h => by
    rw [seriesMax_cons] at h
    cases hy : seriesMax ys with
    | none => rw [hy] at h; exact Option.noConfusion h
    | some m => rw [hy] at h; exact Option.noConfusion h

/-- `seriesMax` bounds every element of the series from above. -/
theorem le_seriesMax : ∀ {xs : List ℚ} {m : ℚ}, seriesMax xs = some m →
    ∀ x ∈ xs, x ≤ m
  | y :: ys, m, hm, x, hx => by
    rw [seriesMax_cons] at hm
    rcases List.mem_cons.1 hx with rfl | hx'
    · cases hy : seriesMax ys with
      | none =>
        rw [hy] at hm
        exact le_of_eq (Option.some.inj hm)
      | some m' =>
        rw [hy] at hm
        exact (Option.some.inj hm) ▸ le_max_left x m'
    · cases hy : seriesMax ys with
      | none => simp [seriesMax_eq_none hy] at hx'
      | some m' =>
        rw [hy] at hm
        exact le_trans (le_seriesMax hy x hx')
          ((Option.some.inj hm) ▸ le_max_right y m')

/-- `seriesMax` is attained on the series. -/
theorem seriesMax_mem : ∀ {xs : List ℚ} {m : ℚ}, seriesMax xs = some m → m ∈ xs
  | y :: ys, m, hm => by
    rw [seriesMax_cons] at hm
    cases hy : seriesMax ys with
    | none =>
      rw [hy] at hm
      exact (Option.some.inj hm) ▸ List.mem_cons_self y ys
    | some m' =>
      rw [hy] at hm
      have h2 : max y m' = m := Option.some.inj hm
      rcases max_choice y m' with h | h
      · exact (h.symm.trans h2) ▸ List.mem_cons_self y ys
      · exact (h.symm.trans h2) ▸ List.mem_cons_of_mem y (seriesMax_mem hy)

/-- **C5** (confirmed). In the payment view, `max_value` is the maximum of
the defined cancellation rates (an attained upper bound), a bar whose rate
equals it is drawn in the highlight color — so all ties at the maximum are
highlighted — and a bar with a strictly smaller rate is drawn in the neutral
base color. -/
theorem C5_max_highlight (l : List Record) (i : Nat) (pt : String) (v m : ℚ)
    (hm : maxValue l = some m)
    (hi : (cancellationRate l)[i]? = some (pt, some v)) :
    (∀ pt' v', (pt', some v') ∈ cancellationRate l → v' ≤ m) ∧
      (∃ pt', (pt', some m) ∈ cancellationRate l) ∧
      ((colorsTab3 l)[i]? = some highlightColor ↔ v = m) ∧
      (v < m → (colorsTab3 l)[i]? = some baseColor) := by
  have hcol : (colorsTab3 l)[i]?
      = some (if v = m then highlightColor else baseColor) := by
    simp only [colorsTab3, List.getElem?_map]
    rw [hi, hm]
    rfl
  refine ⟨?_, ?_, ⟨fun hc => ?_, fun hv => by rw [hcol, if_pos hv]⟩, fun hv => ?_⟩
  · intro pt' v' hmem
    exact le_seriesMax hm v' (List.mem_filterMap.2 ⟨(pt', some v'), hmem, rfl⟩)
  · rcases List.mem_filterMap.1 (seriesMax_mem hm) with ⟨⟨pt', v'⟩, hmem, hv'⟩
    exact ⟨pt', by rwa [show v' = some m from hv'] at hmem⟩
  · by_contra hne
    rw [hcol, if_neg hne] at hc
    exact absurd (Option.some.inj hc) (by decide)
  · rw [hcol, if_neg (ne_of_lt hv)]

/-- One-row frame whose single payment type has one canceled row. -/
def c5Rows : List Record := [mkRecord "A" "X" 5 50 "canceled" "credit_card"]

/-- The (unnormalized) cancellation-rate value of `c5Rows`'s only type. -/
def rateW : ℚ :=
  (canceledCount "credit_card" c5Rows : ℚ) / (ptCount "credit_card" c5Rows : ℚ) * 100

/-- Witness for C5 at a concrete frame, rate and maximum. -/
theorem C5_witness :
    (∀ pt' v', (pt', some v') ∈ cancellationRate c5Rows → v' ≤ rateW) ∧
      (∃ pt', (pt', some rateW) ∈ cancellationRate c5Rows) ∧
      ((colorsTab3 c5Rows)[0]? = some highlightColor ↔ rateW = rateW) ∧
      (rateW < rateW → (colorsTab3 c5Rows)[0]? = some baseColor) :=
  C5_max_highlight c5Rows 0 "credit_card" rateW rateW rfl rfl

/-- The spec's worked example: order A (customer X, 2020-01-01 = epoch day
18262, $50, delivered) and order B (customer X, 2020-01-10 = epoch day
18271, $30, canceled). -/
def c7Rows : List Record :=
  [mkRecord "A" "X" 18262 50 "delivered" "credit_card",
   mkRecord "B" "X" 18271 30 "canceled" "credit_card"]

/-- **C7** (confirmed). On the worked example filtered to the full date
range: Total Orders = 2, Unique Customers = 1, Total Revenue = $80.00,
Average Order Value = $40.00, and customer X's RFM record is
{recency 0, frequency 2, monetary 80}. -/
theorem C7_example :
    filterByDate 18262 18271 c7Rows = c7Rows ∧
      totalOrders (filterByDate 18262 18271 c7Rows) = 2 ∧
      uniqueCustomers (filterByDate 18262 18271 c7Rows) = 1 ∧
      totalRevenue (filterByDate 18262 18271 c7Rows) = 80 ∧
      avgOrderValue (filterByDate 18262 18271 c7Rows) = some 40 ∧
      (rfm (filterByDate 18262 18271 c7Rows)).map
          (fun row => (row.customer_id, row.recency, row.frequency)) = [("X", 0, 2)] ∧
      (rfm (filterByDate 18262 18271 c7Rows)).map RFMRow.monetary = [80] := by
  have hf : filterByDate 18262 18271 c7Rows = c7Rows := by decide
  rw [hf]
  have hkeys : sortedKeys Record.customer_id c7Rows = ["X"] := by decide
  have hrows : customerRows "X" c7Rows = c7Rows := by decide
  have hrev : totalRevenue c7Rows = 80 := by
    simp [totalRevenue, c7Rows, mkRecord]
    norm_num
  refine ⟨rfl, by decide, by decide, hrev, ?_, by decide, ?_⟩
  · rw [avgOrderValue, if_neg (by decide), hrev]
    norm_num [c7Rows]
  · simp only [rfm, hkeys, List.map_cons, List.map_nil, rfmRowOf, hrows]
    rw [show ((c7Rows.map Record.payment_value).sum : ℚ) = totalRevenue c7Rows from rfl,
      hrev]

/-- **C8** (confirmed). In the three RFM top-5 rankings, ties on the ranking
metric are broken by stable frame order: whenever row `a` precedes row `b` in
`rfm_df` (as a pair sublist) and the two rows tie on a metric, `a` is
selected into that metric's top 5 whenever `b` is — the first-seen customer
wins the tie. Each ranking is a pure function of the frame, so the result is
deterministic and reproducible. -/
theorem C8_stable_ties (l : List Record) (a b : RFMRow)
    (hab : List.Sublist [a, b] (rfm l)) :
    (a.recency = b.recency → b ∈ recencyTop5 l → a ∈ recencyTop5 l) ∧
      (a.frequency = b.frequency → b ∈ frequencyTop5 l → a ∈ frequencyTop5 l) ∧
      (a.monetary = b.monetary → b ∈ monetaryTop5 l → a ∈ monetaryTop5 l) :=
  ⟨fun hk hb => nsmallestBy_tie (nodup_rfm l) hab hk hb,
   fun hk hb => nlargestBy_tie (nodup_rfm l) hab hk hb,
   fun hk hb => nlargestBy_tie (nodup_rfm l) hab hk hb⟩

/-- Frame with two customers tied on recency, frequency and monetary. -/
def c8Rows : List Record :=
  [mkRecord "A" "X" 5 50 "delivered" "credit_card",
   mkRecord "B" "Y" 5 50 "delivered" "boleto"]

/-- The first RFM row of `c8Rows`. -/
def c8a : RFMRow := rfmRowOf "X" c8Rows

/-- The second RFM row of `c8Rows`. -/
def c8b : RFMRow := rfmRowOf "Y" c8Rows

/-- Witness for C8: on a two-customer frame tied on recency, the earlier row
is selected because the later one is. -/
theorem C8_witness : c8a ∈ recencyTop5 c8Rows :=
  (C8_stable_ties c8Rows c8a c8b
      (by rw [show rfm c8Rows = [c8a, c8b] from rfl])).1
    (by decide)
    (by rw [show recencyTop5 c8Rows = [c8a, c8b] from rfl]
        exact List.mem_cons_of_mem _ (List.mem_cons_self _ _))

/-- The color list of the category/delivery views: position 0 highlighted,
all later positions in the base color. -/
theorem range_map_highlight (hc bc : String) :
    ∀ n, 0 < n → (List.range n).map (fun i => if i = 0 then hc else bc)
      = hc :: List.replicate (n - 1) bc
  | n + 1, _ => by
    rw [List.range_succ_eq_map, List.map_cons, List.map_map, Nat.add_sub_cancel]
    have hcongr : ∀ i ∈ List.range n,
        ((fun i => if i = 0 then hc else bc) ∘ Nat.succ) i = bc := by
      intro i _
      simp [Function.comp]
    rw [List.map_congr_left hcongr, List.map_const', List.length_range, if_pos rfl]

/-- A non-empty frame yields a non-empty category top-5. -/
theorem length_pos_topCategories {l : List Record} (h : l ≠ []) :
    0 < (topCategories l).length := by
  rcases List.exists_mem_of_ne_nil l h with ⟨r, hr⟩
  have hd : 0 < (l.map Record.product_category_name_english).dedup.length :=
    List.length_pos.mpr
      (List.ne_nil_of_mem (List.mem_dedup.mpr (List.mem_map_of_mem _ hr)))
  simp only [topCategories, valueCountsCategory, List.length_take,
    List.length_insertionSort, List.length_map]
  omega

/-- A non-empty frame yields a non-empty delivery top-5. -/
theorem length_pos_avgDeliveryTime {l : List Record} (h : l ≠ []) :
    0 < (avgDeliveryTime l).length := by
  rcases List.exists_mem_of_ne_nil l h with ⟨r, hr⟩
  have hd : 0 < (sortedKeys Record.customer_state l).length :=
    List.length_pos.mpr (List.ne_nil_of_mem (mem_sortedKeys hr))
  simp only [avgDeliveryTime, List.length_take, List.length_insertionSort,
    List.length_map]
  omega

/-- **C10** (confirmed). In the category and delivery views over a non-empty
filtered subset, exactly the bar at position 0 of the descending ranking is
highlighted and every other bar gets the base color — the coloring depends
only on position, so even when several categories or states tie for the
maximum, only the first-ranked bar is highlighted. -/
theorem C10_position_zero_highlight (l : List Record) (h : l ≠ []) :
    colorsTab1 l
        = highlightColor :: List.replicate ((topCategories l).length - 1) baseColor ∧
      colorsTab2 l
        = highlightColor :: List.replicate ((avgDeliveryTime l).length - 1) baseColor ∧
      highlightColor ≠ baseColor :=
  ⟨range_map_highlight _ _ _ (length_pos_topCategories h),
   range_map_highlight _ _ _ (length_pos_avgDeliveryTime h),
   by decide⟩

/-- Frame instantiating C10, with tied category counts. -/
def c10Rows : List Record :=
  [mkRecord "A" "X" 5 50 "delivered" "credit_card",
   mkRecord "B" "Y" 7 30 "delivered" "boleto"]

/-- Witness for C10 at a concrete non-empty frame. -/
theorem C10_witness :
    colorsTab1 c10Rows
        = highlightColor :: List.replicate ((topCategories c10Rows).length - 1) baseColor ∧
      colorsTab2 c10Rows
        = highlightColor :: List.replicate ((avgDeliveryTime c10Rows).length - 1) baseColor ∧
      highlightColor ≠ baseColor :=
  C10_position_zero_highlight c10Rows (by decide)

end Dashboard
